import Mathlib

/-!
Shallow embedding of `src/index.ts` (class `DockerEventEmitter`) from the
`docker-events` repository, together with proofs about its behaviour.

Modelling choices:
* JS strings that the decoder manipulates character by character are modelled
  as `List Char` (`Str`), so that the newline split of
  `tryParseStdoutData` can be reasoned about structurally.  Strings that are
  only compared for equality (filenames, event names, patterns) stay `String`.
* `JSON.parse` and the shape of the decoded document are external to the
  repository; they are abstracted as a `JsonModel`: a parse function
  (`String → Option α`) and an accessor for the `Action` field
  (`α → Option String`, `none` standing for the JS value `undefined` when the
  field is absent).
* The Node `EventEmitter` base class is modelled by a registry
  `Pattern → List Nat` giving, for each pattern, the listener identifiers in
  registration order; `Pattern` is `Option String` with `none` standing for
  the JS key `undefined`.  `superEmit` models `EventEmitter.prototype.emit`:
  it invokes every listener of the pattern in order and returns whether any
  listener was registered.
* The mutable instance fields of the class form `EmitterState`; a child
  process handle is a record with its `killed` flag.  `retired` records the
  handles that were replaced by later `listen()` calls (the source simply
  overwrites `this.#cmd`; the list keeps them observable so that liveness of
  previously owned subprocesses can be stated).
-/

namespace DockerEvents

/-- Characters of a JS string, for the decoder. -/
abbrev Str := List Char

/-- A JS event key: `some s` is the string `s`, `none` is `undefined`. -/
abbrev Pattern := Option String

/-- Listener registry of the underlying Node `EventEmitter`: for each pattern,
the listener identifiers in registration order. -/
abbrev Registry := Pattern → List Nat

/-- A delivery: a listener identifier paired with the payload it receives. -/
abbrev Delivery (α : Type) := Nat × α

/-- Node `EventEmitter.prototype.emit`: invokes the listeners registered under
`ty` in registration order with the payload, and returns `true` iff at least
one listener was registered. -/
def superEmit (reg : Registry) (ty : Pattern) (payload : α) :
    List (Delivery α) × Bool :=
  ((reg ty).map (fun l => (l, payload)), !(reg ty).isEmpty)

/-- `DockerEventEmitter.emit` (src/index.ts lines 23-26):
`super.emit('*', ...args); return super.emit(type, ...args) || super.emit('', ...args);`
The result is the full delivery sequence and the returned boolean; `||`
short-circuits, so the fallback emit runs only when the typed emit found no
listener. -/
def emit (reg : Registry) (ty : Pattern) (payload : α) :
    List (Delivery α) × Bool :=
  let wild := superEmit reg (some "*") payload
  let typed := superEmit reg ty payload
  if typed.2 then
    (wild.1 ++ typed.1, typed.2)
  else
    let fb := superEmit reg (some "") payload
    (wild.1 ++ typed.1 ++ fb.1, fb.2)

/-- Abstraction of `JSON.parse` plus the `Action` field accessor of the decoded
document (both external to the repository). `action j = none` models a
document without an `Action` field (`json.Action === undefined`). -/
structure JsonModel (α : Type) where
  parse : Str → Option α
  action : α → Option String

/-- An event published by the decoder: the key `json.Action` and the payload. -/
abbrev Event (α : Type) := Pattern × α

/-- Dispatch a list of decoded events through `emit`, concatenating the
deliveries. -/
def dispatch (reg : Registry) (evs : List (Event α)) : List (Delivery α) :=
  (evs.map (fun ev => (emit reg ev.1 ev.2).1)).flatten

/-- JS `data.split(/\n/)` on the character list: split on a separator
character, keeping empty pieces, as `String.prototype.split` does. -/
def splitCh (c : Char) : Str → List Str
  | [] => [[]]
  | x :: xs =>
    match splitCh c xs with
    | [] => [[]]
    | p :: ps => if x = c then [] :: p :: ps else (x :: p) :: ps

/-- The single-piece branch of `tryParseStdoutData` (src/index.ts lines
92-93 and 104-116): bail on an empty chunk, otherwise append the chunk to the
buffer and try to parse the buffer; on success clear the buffer and publish
the document keyed by its `Action` field, on failure keep the buffer (the
error is only logged). Returns the new buffer and the published events. -/
def processSingle (M : JsonModel α) (buffer piece : Str) :
    Str × List (Event α) :=
  if piece = [] then (buffer, [])
  else
    let buf := buffer ++ piece
    match M.parse buf with
    | some j => ([], [(M.action j, j)])
    | none => (buf, [])

/-- The `forEach` loop of the multi-piece branch: each piece of the newline
split is fed back through `tryParseStdoutData`; since no piece contains a
newline, that recursive call is exactly `processSingle` (the empty-chunk
guard included), so the loop is a left-to-right fold of `processSingle`
threading the buffer and accumulating the published events. -/
def feedPieces (M : JsonModel α) (buffer : Str) :
    List Str → Str × List (Event α)
  | [] => (buffer, [])
  | p :: ps =>
    let r := processSingle M buffer p
    let rest := feedPieces M r.1 ps
    (rest.1, r.2 ++ rest.2)

/-- `DockerEventEmitter.tryParseStdoutData` (src/index.ts lines 92-117):
bail on an empty chunk; split on newlines; with more than one piece feed each
piece back through the algorithm in order, otherwise append to the buffer and
try to parse (the recursion on the pieces is unfolded into `feedPieces`, see
there). Returns the new buffer (`this.#data`) and the published events in
order. -/
def tryParseStdoutData (M : JsonModel α) (buffer data : Str) :
    Str × List (Event α) :=
  if data = [] then (buffer, [])
  else
    let pieces := splitCh (Char.ofNat 10) data
    if pieces.length > 1 then feedPieces M buffer pieces
    else processSingle M buffer data

/-- A child process handle: only its `killed` flag (set once `kill()` has been
called on it) is relevant to the model. -/
structure ChildProcess where
  killed : Bool
deriving DecidableEq

/-- The mutable instance fields of `DockerEventEmitter`, plus `retired`, the
handles that `listen()` replaced (observable history of previously owned
subprocesses), and `exitHooks`, the number of `process.on('exit', ...)`
registrations performed. -/
structure EmitterState where
  filters : List String
  cmd : Option ChildProcess
  data : Str
  watcher : Bool
  lastSeen : Option String
  retired : List ChildProcess
  exitHooks : Nat
deriving DecidableEq

/-- The constructor (src/index.ts lines 15-21): `#cmd = null`, `#data = ''`,
`#filters = filters`; `#watcher` and `#lastSeen` are left undefined. -/
def construct (filters : List String) : EmitterState :=
  { filters := filters
    cmd := none
    data := []
    watcher := false
    lastSeen := none
    retired := []
    exitHooks := 0 }

/-- `DockerEventEmitter.cleanup` (src/index.ts lines 28-36): if a subprocess
is tracked and not yet killed, kill it; otherwise do nothing. -/
def cleanup (st : EmitterState) : EmitterState :=
  match st.cmd with
  | none => st
  | some c =>
    if c.killed then st
    else { st with cmd := some { c with killed := true } }

/-- `DockerEventEmitter.listen` (src/index.ts lines 38-90), subprocess and
watcher bookkeeping: clean up the previous subprocess, create the directory
watcher if absent, spawn a new (live) subprocess, register one more
process-exit hook.  The handle that was tracked before is recorded in
`retired`.  The decoder buffer `#data` is not touched. -/
def listen (st : EmitterState) : EmitterState :=
  let st1 := cleanup st
  let st2 := if st1.watcher then st1 else { st1 with watcher := true }
  { st2 with
    cmd := some { killed := false }
    retired := st2.retired ++ st2.cmd.toList
    exitHooks := st2.exitHooks + 1 }

/-- Action requested of the pipeline by the watcher callback. -/
inductive PipelineAction where
  | stop
  | restart
deriving DecidableEq

/-- The `fs.watch` callback installed by `listen` (src/index.ts lines 46-66):
react only to `rename` events for `docker.sock` / `dockerd.pid`; stop when the
socket was deleted, restart when it was recreated, then record the filename in
`#lastSeen`.  Returns the new state together with the pipeline actions taken
(`stop` executes `cleanup`, `restart` executes `listen`). -/
def watcherCallback (st : EmitterState) (event filename : String) :
    EmitterState × List PipelineAction :=
  if event ≠ "rename" then (st, [])
  else if filename ≠ "docker.sock" ∧ filename ≠ "dockerd.pid" then (st, [])
  else
    let r1 :=
      if st.lastSeen = some "docker.sock" ∧ filename = "dockerd.pid" then
        (cleanup st, [PipelineAction.stop])
      else (st, [])
    let r2 :=
      if r1.1.lastSeen = some "dockerd.pid" ∧ filename = "docker.sock" then
        (listen r1.1, r1.2 ++ [PipelineAction.restart])
      else r1
    ({ r2.1 with lastSeen := some filename }, r2.2)

/-- The single quote character, as used in the spawned command line. -/
def quoteCh : Char := Char.ofNat 39

/-- The characters `'{{json .}}'` of the `--format` argument. -/
def formatTemplate : String :=
  String.mk ([quoteCh, Char.ofNat 123, Char.ofNat 123] ++
    "json .".data ++ [Char.ofNat 125, Char.ofNat 125, quoteCh])

/-- The filter fragment (src/index.ts line 72):
`this.#filters.map(filter => "--filter " + filter).join(' ')`. -/
def filtersString (filters : List String) : String :=
  String.intercalate " " (filters.map (fun f => "--filter " ++ f))

/-- A `spawn` call: the command string and whether the shell option is set. -/
structure SpawnCall where
  command : String
  shell : Bool
deriving DecidableEq

/-- The subprocess invocation of `listen` (src/index.ts line 75):
`spawn("docker events --format '{{json .}}' " + filters, { shell: true })`. -/
def spawnInvocation (filters : List String) : SpawnCall :=
  { command := "docker events --format " ++ formatTemplate ++ " " ++
      filtersString filters
    shell := true }

/-- Number of subprocesses owned by the emitter whose `killed` flag is still
unset: the retired handles plus the currently tracked one. -/
def liveCount (st : EmitterState) : Nat :=
  st.retired.countP (fun c => !c.killed) +
    (match st.cmd with
     | some c => if c.killed then 0 else 1
     | none => 0)

/-- Every handle that a `listen()` call replaced had been killed. -/
def allRetiredKilled (st : EmitterState) : Prop :=
  ∀ c ∈ st.retired, c.killed = true

instance (st : EmitterState) : Decidable (allRetiredKilled st) := by
  unfold allRetiredKilled; infer_instance

/-- A concrete decoded-document type for running the model: the raw characters
the document was parsed from and its optional `Action` field. -/
structure ToyDoc where
  raw : Str
  act : Option String
deriving DecidableEq

/-- A concrete `JsonModel` recognising a handful of fixed documents, used to
run the decoder on closed inputs. -/
def toyModel : JsonModel ToyDoc where
  parse s :=
    if s = ['a'] then some ⟨['a'], some "start"⟩
    else if s = ['b'] then some ⟨['b'], some "die"⟩
    else if s = ['x', 'y'] then some ⟨['x', 'y'], some "start"⟩
    else if s = ['q'] then some ⟨['q'], none⟩
    else none
  action j := j.act

/-- A concrete registry: listener 0 on the wildcard, listener 1 on `start`,
listener 2 on `die`, nothing elsewhere (in particular no fallback listener). -/
def toyReg : Registry := fun p =>
  if p = some "*" then [0]
  else if p = some "start" then [1]
  else if p = some "die" then [2]
  else []

/-! ### Supporting lemmas -/

theorem splitCh_ne_nil (c : Char) (l : Str) : splitCh c l ≠ [] := by
  induction l with
  | nil => simp [splitCh]
  | cons x xs ih =>
    simp only [splitCh]
    cases h : splitCh c xs with
    | nil => simp
    | cons p ps =>
      by_cases hx : x = c <;> simp [hx]

/-- A piece without the separator splits into itself alone. -/
theorem splitCh_no_sep (c : Char) (l : Str) (h : c ∉ l) :
    splitCh c l = [l] := by
  induction l with
  | nil => simp [splitCh]
  | cons x xs ih =>
    simp only [List.mem_cons, not_or] at h
    have hx : ¬x = c := fun hx => h.1 hx.symm
    simp only [splitCh, ih h.2]
    simp [hx]

/-- Splitting at the first separator occurrence. -/
theorem splitCh_append_cons (c : Char) (xs ys : Str) (h : c ∉ xs) :
    splitCh c (xs ++ c :: ys) = xs :: splitCh c ys := by
  induction xs with
  | nil =>
    simp only [List.nil_append, splitCh]
    cases hs : splitCh c ys with
    | nil => exact absurd hs (splitCh_ne_nil c ys)
    | cons p ps => simp
  | cons x xs ih =>
    simp only [List.mem_cons, not_or] at h
    have hx : ¬x = c := fun hx => h.1 hx.symm
    simp only [List.cons_append, splitCh]
    simp only [List.append_eq]
    rw [ih h.2]
    simp [hx]

/-- On a chunk without a newline, `tryParseStdoutData` is exactly the
single-piece branch. -/
theorem tryParseStdoutData_no_newline (M : JsonModel α) (buffer data : Str)
    (h : Char.ofNat 10 ∉ data) :
    tryParseStdoutData M buffer data = processSingle M buffer data := by
  unfold tryParseStdoutData
  by_cases hd : data = []
  · simp [hd, processSingle]
  · simp [hd, splitCh_no_sep _ _ h]

theorem cleanup_data (st : EmitterState) : (cleanup st).data = st.data := by
  unfold cleanup
  cases hc : st.cmd with
  | none => rfl
  | some c => by_cases hk : c.killed <;> simp [hk]

theorem cleanup_lastSeen (st : EmitterState) :
    (cleanup st).lastSeen = st.lastSeen := by
  unfold cleanup
  cases hc : st.cmd with
  | none => rfl
  | some c => by_cases hk : c.killed <;> simp [hk]

theorem cleanup_retired (st : EmitterState) :
    (cleanup st).retired = st.retired := by
  unfold cleanup
  cases hc : st.cmd with
  | none => rfl
  | some c => by_cases hk : c.killed <;> simp [hk]

/-- After `cleanup`, whatever handle is still tracked has been killed whenever
the incoming tracked handle is reported by `cmd.toList`; in particular every
handle in `(cleanup st).cmd.toList` is killed provided the branch taken killed
it — the two killed branches are spelled out below. -/
theorem cleanup_cmd_toList_killed (st : EmitterState) :
    ∀ c ∈ (cleanup st).cmd.toList, c.killed = true := by
  unfold cleanup
  cases hc : st.cmd with
  | none => simp [hc]
  | some c =>
    by_cases hk : c.killed
    · simp [hk, hc]
    · simp [hk]

theorem listen_cmd (st : EmitterState) :
    (listen st).cmd = some { killed := false } := by
  unfold listen
  by_cases hw : (cleanup st).watcher <;> simp [hw]

theorem listen_retired (st : EmitterState) :
    (listen st).retired = st.retired ++ (cleanup st).cmd.toList := by
  unfold listen
  by_cases hw : (cleanup st).watcher <;> simp [hw, cleanup_retired]

theorem listen_data (st : EmitterState) : (listen st).data = st.data := by
  unfold listen
  by_cases hw : (cleanup st).watcher <;> simp [hw, cleanup_data]

/-- `String.intercalate.go` pulls a prefix of its accumulator out front. -/
theorem intercalate_go_homo (s : String) (l : List String) :
    ∀ acc₁ acc₂ : String,
      String.intercalate.go (acc₁ ++ acc₂) s l =
        acc₁ ++ String.intercalate.go acc₂ s l := by
  induction l with
  | nil => intro acc₁ acc₂; rfl
  | cons a as ih =>
    intro acc₁ acc₂
    simp only [String.intercalate.go]
    rw [String.append_assoc acc₁ acc₂ s, String.append_assoc acc₁ (acc₂ ++ s) a,
      ih]

theorem filtersString_nil : filtersString [] = "" := rfl

/-- Recursion of the rendered filter fragment: the head filter is rendered
first, then the rest, space-separated. -/
theorem filtersString_cons (f : String) (fs : List String) :
    filtersString (f :: fs) =
      "--filter " ++ f ++ (if fs = [] then "" else " " ++ filtersString fs) := by
  cases fs with
  | nil => simp [filtersString, String.intercalate, String.intercalate.go]
  | cons x xs =>
    have hne : (x :: xs) ≠ ([] : List String) := by simp
    rw [if_neg hne]
    simp only [filtersString, List.map_cons, String.intercalate,
      String.intercalate.go]
    rw [show "--filter " ++ f ++ " " ++ ("--filter " ++ x) =
        ("--filter " ++ f ++ " ") ++ ("--filter " ++ x) from rfl,
      intercalate_go_homo, String.append_assoc]

/-! ### Claim theorems -/

/-- C1: publishing an event of type `ty` with payload `p` delivers `p` first
to every wildcard listener unconditionally, then to every listener registered
under the exact pattern `ty`; the fallback (empty-string) listeners receive it
exactly when no listener is registered under `ty`.  Within each pattern,
listeners fire in registration order (the order given by the registry). -/
theorem emit_dispatch_order (reg : Registry) (ty : Pattern) (p : α) :
    (emit reg ty p).1 =
      (reg (some "*")).map (fun l => (l, p)) ++
        (if reg ty = [] then reg (some "") else reg ty).map (fun l => (l, p)) := by
  unfold emit superEmit
  by_cases h : reg ty = [] <;> simp [h]

/-- C3: a JSON record split across two chunks, neither containing a newline:
the first chunk produces no delivery and is appended to the buffer; the second
chunk produces the delivery of the object parsed from the reconstructed text,
after which the buffer is empty. -/
theorem split_record_two_chunks (M : JsonModel α) (c1 c2 : Str) (j : α)
    (h1 : c1 ≠ []) (h2 : c2 ≠ [])
    (hn1 : Char.ofNat 10 ∉ c1) (hn2 : Char.ofNat 10 ∉ c2)
    (hf : M.parse c1 = none) (hs : M.parse (c1 ++ c2) = some j) :
    tryParseStdoutData M [] c1 = (c1, []) ∧
    tryParseStdoutData M c1 c2 = ([], [(M.action j, j)]) := by
  constructor
  · rw [tryParseStdoutData_no_newline _ _ _ hn1]
    simp [processSingle, h1, hf]
  · rw [tryParseStdoutData_no_newline _ _ _ hn2]
    simp [processSingle, h2, hs]

/-- Witness for C3 at concrete chunks `"x"` and `"y"`. -/
theorem split_record_two_chunks_witness :
    tryParseStdoutData toyModel [] ['x'] = (['x'], []) ∧
    tryParseStdoutData toyModel ['x'] ['y'] =
      ([], [(some "start", ToyDoc.mk ['x', 'y'] (some "start"))]) :=
  split_record_two_chunks toyModel ['x'] ['y']
    (ToyDoc.mk ['x', 'y'] (some "start"))
    (by decide) (by decide) (by decide) (by decide) (by decide) (by decide)

/-- C4: a chunk whose appended buffer content fails to parse publishes no
event, propagates no error, and leaves the buffer holding the appended
content so a later chunk can complete the document. -/
theorem parse_failure_retains_buffer (M : JsonModel α) (buf c : Str)
    (h : c ≠ []) (hn : Char.ofNat 10 ∉ c)
    (hf : M.parse (buf ++ c) = none) :
    tryParseStdoutData M buf c = (buf ++ c, []) := by
  rw [tryParseStdoutData_no_newline _ _ _ hn]
  simp [processSingle, h, hf]

/-- Witness for C4 with buffer `"x"` and chunk `"z"`. -/
theorem parse_failure_retains_buffer_witness :
    tryParseStdoutData toyModel ['x'] ['z'] = (['x', 'z'], []) :=
  parse_failure_retains_buffer toyModel ['x'] ['z']
    (by decide) (by decide) (by decide)

/-- C10: a successfully parsed document without an `Action` field is still
published: the event is keyed on the absent (`none` / JS `undefined`) action
value, the buffer is cleared, and the wildcard listeners receive the payload
unconditionally under every registry. -/
theorem missing_action_still_published (M : JsonModel α) (buf c : Str) (j : α)
    (h : c ≠ []) (hn : Char.ofNat 10 ∉ c)
    (hp : M.parse (buf ++ c) = some j) (ha : M.action j = none) :
    tryParseStdoutData M buf c = ([], [(none, j)]) ∧
    ∀ reg : Registry, ∃ rest, dispatch reg [(none, j)] =
      (reg (some "*")).map (fun l => (l, j)) ++ rest := by
  constructor
  · rw [tryParseStdoutData_no_newline _ _ _ hn]
    simp [processSingle, h, hp, ha]
  · intro reg
    by_cases hb : reg none = []
    · exact ⟨(reg none).map (fun l => (l, j)) ++
        (reg (some "")).map (fun l => (l, j)),
        by simp [dispatch, emit, superEmit, hb]⟩
    · exact ⟨(reg none).map (fun l => (l, j)),
        by simp [dispatch, emit, superEmit, hb]⟩

/-- Witness for C10 at the document parsed from `"q"`, which has no action. -/
theorem missing_action_still_published_witness :
    tryParseStdoutData toyModel [] ['q'] =
      ([], [(none, ToyDoc.mk ['q'] none)]) :=
  (missing_action_still_published toyModel [] ['q'] (ToyDoc.mk ['q'] none)
    (by decide) (by decide) (by decide) (by decide)).1

/-- C2: a chunk carrying two newline-joined complete records goes through
exactly two decode cycles, one per piece, in order — each record is parsed
from its own piece alone — each yielding one event keyed on that record's
action; dispatching the two events through a registry with one wildcard
listener and one listener per action gives one wildcard delivery followed by
one typed delivery for each record, and the buffer ends empty. -/
theorem two_records_two_cycles (M : JsonModel α) (reg : Registry)
    (r1 r2 : Str) (j1 j2 : α) (a1 a2 : String) (w l1 l2 : Nat)
    (h1 : r1 ≠ []) (h2 : r2 ≠ [])
    (hn1 : Char.ofNat 10 ∉ r1) (hn2 : Char.ofNat 10 ∉ r2)
    (hp1 : M.parse r1 = some j1) (ha1 : M.action j1 = some a1)
    (hp2 : M.parse r2 = some j2) (ha2 : M.action j2 = some a2)
    (hw : reg (some "*") = [w]) (hl1 : reg (some a1) = [l1])
    (hl2 : reg (some a2) = [l2]) :
    tryParseStdoutData M [] (r1 ++ Char.ofNat 10 :: r2) =
      ([], [(some a1, j1), (some a2, j2)]) ∧
    dispatch reg [(some a1, j1), (some a2, j2)] =
      [(w, j1), (l1, j1), (w, j2), (l2, j2)] := by
  constructor
  · have hne : r1 ++ Char.ofNat 10 :: r2 ≠ [] := by simp
    have hsplit : splitCh (Char.ofNat 10) (r1 ++ Char.ofNat 10 :: r2) =
        [r1, r2] := by
      rw [splitCh_append_cons _ _ _ hn1, splitCh_no_sep _ _ hn2]
    unfold tryParseStdoutData
    rw [if_neg hne]
    simp only [hsplit, List.length_cons, List.length_nil]
    simp [feedPieces, processSingle, h1, h2, hp1, hp2, ha1, ha2]
  · simp [dispatch, emit, superEmit, hw, hl1, hl2]

/-- Witness for C2 at the chunk `"a\nb"` with one wildcard listener and one
listener per action. -/
theorem two_records_two_cycles_witness :
    tryParseStdoutData toyModel [] ('a' :: Char.ofNat 10 :: ['b']) =
      ([], [(some "start", ToyDoc.mk ['a'] (some "start")),
            (some "die", ToyDoc.mk ['b'] (some "die"))]) ∧
    dispatch toyReg [(some "start", ToyDoc.mk ['a'] (some "start")),
        (some "die", ToyDoc.mk ['b'] (some "die"))] =
      [(0, ToyDoc.mk ['a'] (some "start")), (1, ToyDoc.mk ['a'] (some "start")),
       (0, ToyDoc.mk ['b'] (some "die")), (2, ToyDoc.mk ['b'] (some "die"))] :=
  two_records_two_cycles toyModel toyReg ['a'] ['b']
    (ToyDoc.mk ['a'] (some "start")) (ToyDoc.mk ['b'] (some "die"))
    "start" "die" 0 1 2
    (by decide) (by decide) (by decide) (by decide)
    (by decide) (by decide) (by decide) (by decide)
    (by decide) (by decide) (by decide)

/-- C5: for a qualifying rename notification (event `rename`, filename one of
the two marker files): seeing the pid file while the socket file was last seen
runs stop (`cleanup`); seeing the socket file while the pid file was last seen
runs restart (`listen`); any other combination runs no pipeline action; and in
every qualifying case `lastSeen` is set to the filename afterwards. -/
theorem watcher_transition_rules (st : EmitterState) (event filename : String)
    (hev : event = "rename")
    (hf : filename = "docker.sock" ∨ filename = "dockerd.pid") :
    (st.lastSeen = some "docker.sock" ∧ filename = "dockerd.pid" →
      watcherCallback st event filename =
        ({ cleanup st with lastSeen := some filename },
         [PipelineAction.stop])) ∧
    (st.lastSeen = some "dockerd.pid" ∧ filename = "docker.sock" →
      watcherCallback st event filename =
        ({ listen st with lastSeen := some filename },
         [PipelineAction.restart])) ∧
    (¬(st.lastSeen = some "docker.sock" ∧ filename = "dockerd.pid") →
      ¬(st.lastSeen = some "dockerd.pid" ∧ filename = "docker.sock") →
      watcherCallback st event filename =
        ({ st with lastSeen := some filename }, [])) ∧
    (watcherCallback st event filename).1.lastSeen = some filename := by
  subst hev
  have hnq : ¬(filename ≠ "docker.sock" ∧ filename ≠ "dockerd.pid") := by
    rcases hf with h | h <;> simp [h]
  refine ⟨?_, ?_, ?_, ?_⟩
  · rintro ⟨hls, hfn⟩
    subst hfn
    simp [watcherCallback, hls, cleanup_lastSeen]
  · rintro ⟨hls, hfn⟩
    subst hfn
    simp [watcherCallback, hls]
  · intro hno1 hno2
    simp [watcherCallback, hnq, hno1, hno2]
  · unfold watcherCallback
    rw [if_neg (by simp), if_neg hnq]

/-- Witness for C5: with `lastSeen = docker.sock` and a live subprocess, a
rename of `dockerd.pid` yields exactly the stop action and updates
`lastSeen`. -/
theorem watcher_transition_rules_witness :
    watcherCallback
        { construct [] with
          lastSeen := some "docker.sock"
          cmd := some { killed := false } } "rename" "dockerd.pid" =
      ({ cleanup
          { construct [] with
            lastSeen := some "docker.sock"
            cmd := some { killed := false } } with
          lastSeen := some "dockerd.pid" },
       [PipelineAction.stop]) :=
  (watcher_transition_rules
    { construct [] with
      lastSeen := some "docker.sock"
      cmd := some { killed := false } }
    "rename" "dockerd.pid" rfl (Or.inr rfl)).1 ⟨rfl, rfl⟩

/-- C6: `listen` first terminates whatever subprocess was tracked, then spawns
a fresh live one: if every previously replaced handle was killed, then after
`listen` every replaced handle is still killed, exactly one owned subprocess
is live, and it is the newly tracked one. -/
theorem listen_single_live (st : EmitterState) (h : allRetiredKilled st) :
    allRetiredKilled (listen st) ∧ liveCount (listen st) = 1 ∧
    (listen st).cmd = some { killed := false } := by
  have hret : (listen st).retired = st.retired ++ (cleanup st).cmd.toList :=
    listen_retired st
  refine ⟨?_, ?_, listen_cmd st⟩
  · intro c hc
    rw [hret] at hc
    rcases List.mem_append.mp hc with hm | hm
    · exact h c hm
    · exact cleanup_cmd_toList_killed st c hm
  · unfold liveCount
    rw [hret, listen_cmd]
    have hz : (st.retired ++ (cleanup st).cmd.toList).countP
        (fun c => !c.killed) = 0 := by
      rw [List.countP_eq_zero]
      intro a ha
      rcases List.mem_append.mp ha with hm | hm
      · simp [h a hm]
      · simp [cleanup_cmd_toList_killed st a hm]
    rw [hz]
    simp

/-- Witness for C6: a second `listen()` while the subprocess of the first is
still alive leaves exactly one live subprocess, the newly spawned one. -/
theorem listen_single_live_witness :
    allRetiredKilled (listen (listen (construct []))) ∧
    liveCount (listen (listen (construct []))) = 1 ∧
    (listen (listen (construct []))).cmd = some { killed := false } :=
  listen_single_live (listen (construct [])) (by decide)

/-- C7: `cleanup` (the stop operation) is idempotent: a no-op with no tracked
subprocess or an already-killed one; otherwise it only marks the tracked
subprocess killed; applying it twice equals applying it once, and it never
fails (it is a total function). -/
theorem cleanup_idempotent (st : EmitterState) :
    (st.cmd = none → cleanup st = st) ∧
    (∀ c, st.cmd = some c → c.killed = true → cleanup st = st) ∧
    (∀ c, st.cmd = some c → c.killed = false →
      cleanup st = { st with cmd := some { killed := true } }) ∧
    cleanup (cleanup st) = cleanup st := by
  refine ⟨?_, ?_, ?_, ?_⟩
  · intro hc; simp [cleanup, hc]
  · intro c hc hk; simp [cleanup, hc, hk]
  · intro c hc hk; simp [cleanup, hc, hk]
  · cases hc : st.cmd with
    | none => simp [cleanup, hc]
    | some c =>
      by_cases hk : c.killed
      · simp [cleanup, hc, hk]
      · simp [cleanup, hc, hk]

/-- Witness for C7: no-op without a tracked subprocess, no-op on an
already-killed one, and idempotence from a live one. -/
theorem cleanup_idempotent_witness :
    cleanup (construct []) = construct [] ∧
    cleanup { construct [] with cmd := some { killed := true } } =
      { construct [] with cmd := some { killed := true } } ∧
    cleanup (cleanup { construct [] with cmd := some { killed := false } }) =
      cleanup { construct [] with cmd := some { killed := false } } :=
  ⟨(cleanup_idempotent (construct [])).1 rfl,
   (cleanup_idempotent
      { construct [] with cmd := some { killed := true } }).2.1
      { killed := true } rfl rfl,
   (cleanup_idempotent
      { construct [] with cmd := some { killed := false } }).2.2.2⟩

/-- C8: the spawn call goes through a shell-capable launcher and its command
is the daemon events command with the json format template followed by the
rendered filter fragment; that fragment renders each filter as
`--filter value`, in the caller-supplied order. -/
theorem spawn_command_shape (filters : List String) :
    (spawnInvocation filters).shell = true ∧
    (spawnInvocation filters).command =
      "docker events --format " ++ formatTemplate ++ " " ++
        filtersString filters ∧
    filtersString [] = "" ∧
    ∀ f fs, filtersString (f :: fs) =
      "--filter " ++ f ++ (if fs = [] then "" else " " ++ filtersString fs) :=
  ⟨rfl, rfl, rfl, fun f fs => filtersString_cons f fs⟩

/-- C9: the decoder buffer is initialised to empty only by the constructor;
neither `cleanup` nor `listen` touches it, so stale partial content survives a
stop or restart and is prepended to the first chunk fed afterwards. -/
theorem buffer_survives_lifecycle (M : JsonModel α) (st : EmitterState)
    (filters : List String) :
    (construct filters).data = [] ∧
    (cleanup st).data = st.data ∧
    (listen st).data = st.data ∧
    (∀ c, c ≠ [] → Char.ofNat 10 ∉ c → M.parse (st.data ++ c) = none →
      tryParseStdoutData M (listen st).data c = (st.data ++ c, [])) := by
  refine ⟨rfl, cleanup_data st, listen_data st, ?_⟩
  intro c hcne hn hp
  rw [listen_data st, tryParseStdoutData_no_newline _ _ _ hn]
  simp [processSingle, hcne, hp]

/-- Witness for C9: a buffer holding `"x"` survives a restart and the next
chunk `"z"` is appended to it. -/
theorem buffer_survives_lifecycle_witness :
    (construct ([] : List String)).data = [] ∧
    tryParseStdoutData toyModel
        (listen { construct [] with data := ['x'] }).data ['z'] =
      (['x', 'z'], []) :=
  ⟨(buffer_survives_lifecycle toyModel (construct []) []).1,
   (buffer_survives_lifecycle toyModel
      { construct [] with data := ['x'] } []).2.2.2
     ['z'] (by decide) (by decide) (by decide)⟩

end DockerEvents
